import Mathlib

/-!
# DocProcessingMVP — formal model of `src/App.py`

Shallow embedding of the Streamlit purchase-order pipeline. `pandas`
tables become `DataFrame` (ordered column names plus rows as association
lists, a missing key standing for NaN), the Streamlit session state
becomes `SessionState`, each `requests.post` call is summarised by a
`FetchResult` value consumed inside the `try` block of the corresponding
button handler, the SQLite table `order_matches` is a list of value
tuples in physical insertion order, and `to_csv` is `toCsv`.
-/

namespace App

/-- One table row: an association list from column name to cell value.
A missing key models a NaN cell of the `pandas` frame. -/
abbrev Row := List (String × String)

/-- `row[c]`: the value of column `c` in a row, when the cell is present. -/
def rowGet (r : Row) (c : String) : Option String :=
  (r.find? (fun p => p.1 == c)).map (fun p => p.2)

/-- Keys of a row, in order. -/
def rowKeys (r : Row) : List String := r.map (fun p => p.1)

/-- Assignment `row[c] = v` with `pandas`/`dict` semantics: overwrite in
place when the key exists, append at the end otherwise. -/
def setCell (r : Row) (c v : String) : Row :=
  if r.any (fun p => p.1 == c) then
    r.map (fun p => if p.1 == c then (c, v) else p)
  else r ++ [(c, v)]

/-- A `pandas` data frame: ordered column names and ordered rows. -/
structure DataFrame where
  columns : List String
  rows : List Row
deriving Repr, DecidableEq

/-- Fold the keys of one row into the running column list, keeping
first-appearance order, the way `pd.DataFrame(list_of_dicts)` derives
its columns. -/
def addKeys (acc : List String) (r : Row) : List String :=
  r.foldl (fun a p => if p.1 ∈ a then a else a ++ [p.1]) acc

/-- Union of the keys of all rows, in first-appearance order. -/
def unionKeys (items : List Row) : List String :=
  items.foldl addKeys []

/-- `pd.DataFrame(items)` applied to a parsed JSON array of objects
(App.py line 72). -/
def mkDataFrame (items : List Row) : DataFrame :=
  { columns := unionKeys items, rows := items }

/-- Outcome of one `requests.post` call as seen inside the `try` block:
either the transport raised, or a response arrived carrying an HTTP
status code and a body that either parses as the expected JSON shape
(`some`) or is malformed (`none`). -/
inductive FetchResult (α : Type) where
  | transportError (msg : String)
  | response (status : Nat) (body : Option α)

/-- The value the `try` block extracts from a call: `none` exactly when
one of the three failure modes fires — transport error,
`res.raise_for_status()` (which raises for the 4xx and 5xx ranges), or a
body that is not the expected JSON. -/
def fetchOutcome {α : Type} : FetchResult α → Option α
  | .transportError _ => none
  | .response status body =>
      if 400 ≤ status ∧ status < 600 then none else body

/-- The per-session `st.session_state` slots the app uses. -/
structure SessionState where
  pdfBytes : Option (List Nat)
  uploadedFilename : Option String
  df : Option DataFrame
  matchCandidates : Option (List (List String))
  poFields : List (String × String)

/-- Body of the `Generate Extraction` button (App.py lines 63–75): on
success store `pd.DataFrame(items)` in the `df` slot, on any failure
only show an error. -/
def extractHandler (s : SessionState) (resp : FetchResult (List Row)) :
    SessionState :=
  match fetchOutcome resp with
  | none => s
  | some items => { s with df := some (mkDataFrame items) }

/-- Ensure the working copy has a `"Matched Item"` column (App.py lines
91–94): `df["Matched Item"] = ""` when the column is absent. -/
def ensureMatchedItem (df : DataFrame) : DataFrame :=
  if "Matched Item" ∈ df.columns then df
  else { columns := df.columns ++ ["Matched Item"],
         rows := df.rows.map (fun r => setCell r "Matched Item" "") }

/-- The description column (App.py line 99): `"Request Item"` when
present, else the first column. The Python expression `df.columns[0]`
raises on a frame with no columns (uncaught, outside the `try`); the
`headD ""` default is never exercised under that hypothesis. -/
def descColumn (df : DataFrame) : String :=
  if "Request Item" ∈ df.columns then "Request Item" else df.columns.headD ""

/-- One cell rendered by `astype(str)`: the stored string, or `"nan"`
for a missing (NaN) cell. -/
def cellStr (r : Row) (c : String) : String :=
  match rowGet r c with
  | some v => v
  | none => "nan"

/-- `df[desc_col].astype(str).tolist()` (App.py line 100). -/
def descList (df : DataFrame) : List String :=
  df.rows.map (fun r => cellStr r (descColumn df))

/-- The batched request sent to the matching endpoint (App.py lines
100–104): the full description list plus the fixed limit parameter. -/
structure MatchRequest where
  queries : List String
  limit : Nat
deriving Repr, DecidableEq

/-- Build the matching request from the Match tab's working table. -/
def buildMatchRequest (df : DataFrame) : MatchRequest :=
  { queries := descList df, limit := 5 }

/-- `matches_dict.get(desc, [])` (App.py line 108). -/
def dictGet (d : List (String × List String)) (k : String) : List String :=
  match d.find? (fun p => p.1 == k) with
  | some p => p.2
  | none => []

/-- Re-expansion of the response mapping into one candidate list per
input description, in input order (App.py line 108). -/
def matchLists (d : List (String × List String)) (descs : List String) :
    List (List String) :=
  descs.map (fun desc => dictGet d desc)

/-- Body of the `Generate Mapping` button (App.py lines 97–112), acting
on the Match tab's working copy (the session table with the
`"Matched Item"` column ensured): on success store the re-expanded
candidate lists in the `matches` slot, on any failure only show an
error. -/
def matchHandler (s : SessionState)
    (resp : FetchResult (List (String × List String))) : SessionState :=
  match s.df with
  | none => s
  | some df0 =>
    match fetchOutcome resp with
    | none => s
    | some dict =>
        { s with matchCandidates := some (matchLists dict (descList (ensureMatchedItem df0))) }

/-- Options shown by the selectbox of one row (App.py lines 118–122):
the row's candidates, or a single blank option when there are none. -/
def selectOptions (options : List String) : List String :=
  if options.isEmpty then [""] else options

/-- Streamlit's default selection is the option at index 0. -/
def selectDefault (options : List String) : String :=
  (selectOptions options).headD ""

/-- `df.at[i, "Matched Item"] = v` (App.py line 118). -/
def writeMatchedItem (df : DataFrame) (i : Nat) (v : String) : DataFrame :=
  { df with rows := df.rows.set i (setCell (df.rows.getD i []) "Matched Item" v) }

/-- The selectbox loop (App.py lines 115–122): write the current
selection of every row into its `"Matched Item"` cell. -/
def applySelections (df : DataFrame) (ms : List (List String))
    (sel : Nat → String) : DataFrame :=
  (List.range ms.length).foldl (fun d i => writeMatchedItem d i (sel i)) df

/-- One render of the Match tab with no button pressed (App.py lines
85–148): take a working copy of the session table, ensure the
`"Matched Item"` column, apply the selectboxes when candidate lists are
stored, and write the working copy back to the session. `sel i` is the
value currently chosen in row `i`'s selectbox. -/
def renderMatchTab (s : SessionState) (sel : Nat → String) : SessionState :=
  match s.df with
  | none => s
  | some df0 =>
    let df1 := ensureMatchedItem df0
    let df2 :=
      match s.matchCandidates with
      | none => df1
      | some ms => applySelections df1 ms sel
    { s with df := some df2 }

/-- The four fixed purchase-order fields (App.py lines 34–40). -/
def initPoFields : List (String × String) :=
  [("Request ID", ""), ("Delivery Address", ""), ("PO Date", ""), ("PO Number", "")]

/-- The auto-generated name `f"Field {n}"` (App.py line 43). -/
def fieldName (n : Nat) : String := "Field " ++ Nat.repr n

/-- `add_field` (App.py lines 42–43):
`po_fields[f"Field {len(po_fields) + 1}"] = ""`. -/
def addField (fs : List (String × String)) : List (String × String) :=
  setCell fs (fieldName (fs.length + 1)) ""

/-- `clear_fields` (App.py lines 45–46). -/
def clearFields (_fs : List (String × String)) : List (String × String) := []

/-- The `po_fields` dictionaries reachable in the app: the four initial
fields, then any interleaving of value edits through the rendered text
inputs (which rewrite the value of an existing key), `add_field`, and
`clear_fields`. -/
inductive ReachableFields : List (String × String) → Prop where
  | init : ReachableFields initPoFields
  | edit {fs : List (String × String)} {k v : String} :
      ReachableFields fs → k ∈ rowKeys fs → ReachableFields (setCell fs k v)
  | add {fs : List (String × String)} :
      ReachableFields fs → ReachableFields (addField fs)
  | clear {fs : List (String × String)} :
      ReachableFields fs → ReachableFields (clearFields fs)

/-- One persisted row of the SQLite table `order_matches`: the tuple of
values in column order that `DataFrame.to_sql` writes for one frame row
(`none` is SQL NULL, from a missing cell). -/
abbrev DbRow := List (Option String)

/-- The tuples `to_sql` appends for a frame, in row order. -/
def toSqlRows (df : DataFrame) : List DbRow :=
  df.rows.map (fun r => df.columns.map (fun c => rowGet r c))

/-- `SELECT * FROM order_matches ORDER BY rowid DESC LIMIT n` over a
table held in physical insertion order. -/
def readRecent (n : Nat) (db : List DbRow) : List DbRow :=
  db.reverse.take n

/-- Body of the `Confirm & Save` button (App.py lines 125–136): append
all rows of the working table, then read back the five most recent rows
for display; `storageFail` selects the `except` branch, which changes
nothing and shows no preview. -/
def saveHandler (df : DataFrame) (db : List DbRow) (storageFail : Bool) :
    List DbRow × Option (List DbRow) :=
  if storageFail then (db, none)
  else
    let db2 := db ++ toSqlRows df
    (db2, some (readRecent 5 db2))

/-- Minimal CSV quoting as `to_csv` performs it: a field is quoted
exactly when it contains a delimiter, a quote or a line break, and
embedded quotes are doubled. -/
def csvQuote (s : String) : String :=
  if s.data.any (fun c => c == ',' || c == '"' || c == '\n' || c == '\r') then
    "\"" ++ s.replace "\"" "\"\"" ++ "\""
  else s

/-- One CSV line from a list of cell strings. -/
def csvLine (cells : List String) : String :=
  String.intercalate "," (cells.map csvQuote)

/-- `df.to_csv(index=False)` (App.py line 139): the header line, then
one line per row, each terminated by a newline; a missing cell prints as
the empty string. -/
def toCsv (df : DataFrame) : String :=
  csvLine df.columns ++ "\n" ++
    String.join (df.rows.map (fun r =>
      csvLine (df.columns.map (fun c => (rowGet r c).getD "")) ++ "\n"))

/-- The save-and-export tail of the Match tab (App.py lines 125–145):
the save button's effect on the store, followed by the CSV download
offered unconditionally below it. -/
def saveAndExport (df : DataFrame) (db : List DbRow) (storageFail : Bool) :
    (List DbRow × Option (List DbRow)) × String :=
  (saveHandler df db storageFail, toCsv df)

/-! ### Decimal rendering: `Nat.repr` is injective

The auto-generated field names are `f"Field {n}"`; uniqueness of these
names rests on injectivity of the decimal rendering of `n`, proved here
against core's fuelled `Nat.toDigitsCore`. -/

/-- Big-endian decimal digit characters of `n`: fuel-free counterpart of
`Nat.toDigits 10`. -/
def decDigits (n : Nat) : List Char :=
  if _h : n < 10 then [Nat.digitChar n]
  else
    have : n / 10 < n := Nat.div_lt_self (by omega) (by omega)
    decDigits (n / 10) ++ [Nat.digitChar (n % 10)]

theorem toDigitsCore_eq_decDigits (fuel : Nat) :
    ∀ n acc, n < fuel → Nat.toDigitsCore 10 fuel n acc = decDigits n ++ acc := by
  induction fuel with
  | zero => intro n acc h; omega
  | succ fuel ih =>
    intro n acc h
    simp only [Nat.toDigitsCore]
    by_cases h10 : n / 10 = 0
    · have hn : n < 10 := by omega
      rw [if_pos h10, decDigits, dif_pos hn, Nat.mod_eq_of_lt hn]
      rfl
    · have hn10 : ¬ n < 10 := by omega
      rw [if_neg h10, ih (n / 10) _ (by omega)]
      conv_rhs => rw [decDigits, dif_neg hn10]
      rw [List.append_assoc]
      rfl

theorem repr_eq_decDigits (n : Nat) : Nat.repr n = (decDigits n).asString := by
  show (Nat.toDigits 10 n).asString = _
  rw [Nat.toDigits, toDigitsCore_eq_decDigits (n + 1) n [] (Nat.lt_succ_self n),
    List.append_nil]

/-- Numeric value of a decimal digit character. -/
def digitVal (c : Char) : Nat := c.toNat - 48

theorem digitVal_digitChar {d : Nat} (h : d < 10) :
    digitVal (Nat.digitChar d) = d := by
  interval_cases d <;> decide

theorem foldl_decDigits (n : Nat) :
    ∀ a, (decDigits n).foldl (fun a c => 10 * a + digitVal c) a
      = a * 10 ^ (decDigits n).length + n := by
  induction n using Nat.strong_induction_on with
  | _ n ih =>
    intro a
    by_cases h : n < 10
    · rw [decDigits, dif_pos h]
      simp [digitVal_digitChar h, pow_one]
      omega
    · rw [decDigits, dif_neg h, List.foldl_append,
        ih (n / 10) (Nat.div_lt_self (by omega) (by omega)) a]
      have hd : digitVal (Nat.digitChar (n % 10)) = n % 10 :=
        digitVal_digitChar (Nat.mod_lt n (by omega))
      have hdm : 10 * (n / 10) + n % 10 = n := Nat.div_add_mod n 10
      simp only [List.foldl, List.length_append, List.length_cons,
        List.length_nil, hd, pow_succ]
      calc 10 * (a * 10 ^ (decDigits (n / 10)).length + n / 10) + n % 10
          = a * (10 ^ (decDigits (n / 10)).length * 10)
              + (10 * (n / 10) + n % 10) := by ring
        _ = a * (10 ^ (decDigits (n / 10)).length * 10) + n := by rw [hdm]

/-- Reading the digit characters back as a number. -/
def charsVal (l : List Char) : Nat :=
  l.foldl (fun a c => 10 * a + digitVal c) 0

theorem charsVal_decDigits (n : Nat) : charsVal (decDigits n) = n := by
  have h := foldl_decDigits n 0
  simpa [charsVal] using h

theorem decDigits_injective {m n : Nat} (h : decDigits m = decDigits n) :
    m = n := by
  have h2 : charsVal (decDigits m) = charsVal (decDigits n) := by rw [h]
  rwa [charsVal_decDigits, charsVal_decDigits] at h2

theorem repr_data (n : Nat) : (Nat.repr n).data = decDigits n := by
  rw [repr_eq_decDigits]
  rfl

theorem string_data_append (s t : String) : (s ++ t).data = s.data ++ t.data := by
  cases s; cases t; rfl

theorem fieldName_data (n : Nat) :
    (fieldName n).data = 'F' :: 'i' :: 'e' :: 'l' :: 'd' :: ' ' :: decDigits n := by
  show ("Field " ++ Nat.repr n).data = _
  rw [string_data_append, repr_data]
  rfl

theorem fieldName_injective {m n : Nat} (h : fieldName m = fieldName n) :
    m = n := by
  have h2 := congrArg String.data h
  rw [fieldName_data, fieldName_data] at h2
  exact decDigits_injective (by simpa using h2)

theorem fieldName_head (n : Nat) : (fieldName n).data.head? = some 'F' := by
  rw [fieldName_data]
  rfl

theorem fieldName_ne (n : Nat) (s : String) (hs : s.data.head? ≠ some 'F') :
    fieldName n ≠ s := by
  intro h
  exact hs (h ▸ fieldName_head n)

theorem fieldName_notMem_init (n : Nat) :
    fieldName n ∉ rowKeys initPoFields := by
  intro hmem
  simp only [initPoFields, rowKeys, List.map_cons, List.map_nil,
    List.mem_cons, List.not_mem_nil, or_false] at hmem
  rcases hmem with h | h | h | h
  · exact fieldName_ne n _ (by decide) h
  · exact fieldName_ne n _ (by decide) h
  · exact fieldName_ne n _ (by decide) h
  · exact fieldName_ne n _ (by decide) h

/-! ### Association-list (row / dict) lemmas -/

theorem lookup_cons_ite {β : Type} (k a : String) (b : β) (es : List (String × β)) :
    ((k, b) :: es).lookup a = if a = k then some b else es.lookup a := by
  rw [List.lookup_cons]
  by_cases h : a = k
  · rw [if_pos h, show (a == k) = true by simp [h]]
  · rw [if_neg h, show (a == k) = false by simp [h]]

theorem rowGet_eq_lookup (r : Row) (c : String) : rowGet r c = r.lookup c := by
  induction r with
  | nil => rfl
  | cons p tl ih =>
    obtain ⟨k, b⟩ := p
    by_cases h : k = c
    · have hstep : rowGet ((k, b) :: tl) c = some b := by
        simp only [rowGet]
        rw [List.find?_cons_of_pos _ (by simp [h])]
        rfl
      rw [hstep, lookup_cons_ite, if_pos h.symm]
    · have hstep : rowGet ((k, b) :: tl) c = rowGet tl c := by
        simp only [rowGet]
        rw [List.find?_cons_of_neg _ (by simp [h])]
      rw [hstep, ih, lookup_cons_ite, if_neg (fun e => h e.symm)]

theorem any_key_iff (r : Row) (c : String) :
    (r.any (fun p => p.1 == c) = true) ↔ c ∈ rowKeys r := by
  simp only [List.any_eq_true, rowKeys, List.mem_map, beq_iff_eq]

theorem lookup_mapUpdate (c v c' : String) (r : Row) :
    (r.map (fun p => if p.1 == c then (c, v) else p)).lookup c'
      = if c' = c then (r.lookup c).map (fun _ => v) else r.lookup c' := by
  induction r with
  | nil => by_cases h : c' = c <;> simp [h]
  | cons p tl ih =>
    obtain ⟨k, b⟩ := p
    simp only [List.map_cons]
    by_cases hkc : k = c
    · have hh : (if ((k, b).1 == c) = true then (c, v) else (k, b)) = (c, v) := by
        simp [hkc]
      by_cases hcc : c' = c
      · rw [hh, lookup_cons_ite, if_pos hcc, if_pos hcc, lookup_cons_ite,
          if_pos hkc.symm]
        rfl
      · rw [hh, lookup_cons_ite, if_neg hcc, ih, if_neg hcc, if_neg hcc,
          lookup_cons_ite, if_neg (fun e => hcc (e.trans hkc))]
    · have hh : (if ((k, b).1 == c) = true then (c, v) else (k, b)) = (k, b) := by
        simp [hkc]
      rw [hh, lookup_cons_ite]
      by_cases hck : c' = k
      · have hcc : ¬ c' = c := fun e => hkc (hck.symm.trans e)
        rw [if_pos hck, if_neg hcc, lookup_cons_ite, if_pos hck]
      · rw [if_neg hck, ih]
        by_cases hcc : c' = c
        · rw [if_pos hcc, if_pos hcc, lookup_cons_ite, if_neg (fun e => hkc e.symm)]
        · rw [if_neg hcc, if_neg hcc, lookup_cons_ite, if_neg hck]

theorem rowGet_setCell (r : Row) (c v c' : String) :
    rowGet (setCell r c v) c' = if c' = c then some v else rowGet r c' := by
  rw [rowGet_eq_lookup, setCell]
  by_cases hany : (r.any (fun p => p.1 == c)) = true
  · rw [if_pos hany, lookup_mapUpdate]
    by_cases hcc : c' = c
    · rw [if_pos hcc, if_pos hcc]
      have hsome : (r.lookup c).isSome := by
        rw [List.lookup_isSome_iff]
        rcases List.any_eq_true.1 hany with ⟨p, hp, hpc⟩
        have hpc2 : p.1 = c := by simpa using hpc
        exact ⟨p, hp, by simp [hpc2]⟩
      obtain ⟨b, hb⟩ := Option.isSome_iff_exists.1 hsome
      rw [hb]
      rfl
    · rw [if_neg hcc, if_neg hcc, rowGet_eq_lookup]
  · rw [if_neg hany, List.lookup_append]
    by_cases hcc : c' = c
    · subst hcc
      rw [if_pos rfl]
      have hnone : r.lookup c' = none := by
        rw [← rowGet_eq_lookup]
        simp only [rowGet]
        rw [List.find?_eq_none.2, Option.map_none']
        intro p hp hbeq
        exact hany (List.any_eq_true.2 ⟨p, hp, hbeq⟩)
      rw [hnone]
      simp [List.lookup_cons]
    · rw [if_neg hcc, rowGet_eq_lookup]
      have : List.lookup c' [(c, v)] = none := by
        simp [List.lookup_cons, show (c' == c) = false by simp [hcc]]
      rw [this, Option.or_none]

theorem rowKeys_setCell_of_mem {r : Row} {c : String} (h : c ∈ rowKeys r)
    (v : String) : rowKeys (setCell r c v) = rowKeys r := by
  rw [setCell, if_pos ((any_key_iff r c).2 h)]
  simp only [rowKeys, List.map_map]
  apply List.map_congr_left
  intro p _
  simp only [Function.comp]
  split
  · next heq => simp only [beq_iff_eq] at heq; exact heq.symm
  · rfl

theorem length_setCell_of_mem {r : Row} {c : String} (h : c ∈ rowKeys r)
    (v : String) : (setCell r c v).length = r.length := by
  rw [setCell, if_pos ((any_key_iff r c).2 h), List.length_map]

theorem setCell_of_notMem {r : Row} {c : String} (h : c ∉ rowKeys r)
    (v : String) : setCell r c v = r ++ [(c, v)] := by
  rw [setCell, if_neg]
  intro hany
  exact h ((any_key_iff r c).1 hany)

/-! ### The purchase-order field set -/

/-- Invariant of the reachable `po_fields` states: every auto-generated
key `"Field n"` present in the dict satisfies `n ≤ size`, so the next
auto-generated name `"Field (size+1)"` is always fresh. -/
def FieldInv (fs : List (String × String)) : Prop :=
  ∀ n : Nat, fieldName n ∈ rowKeys fs → n ≤ fs.length

theorem fieldInv_init : FieldInv initPoFields := by
  intro n hn
  exact absurd hn (fieldName_notMem_init n)

theorem fieldInv_setCell_of_mem {fs : List (String × String)} {k v : String}
    (h : FieldInv fs) (hk : k ∈ rowKeys fs) : FieldInv (setCell fs k v) := by
  intro n hn
  rw [rowKeys_setCell_of_mem hk] at hn
  rw [length_setCell_of_mem hk]
  exact h n hn

theorem fieldName_fresh {fs : List (String × String)} (h : FieldInv fs) :
    fieldName (fs.length + 1) ∉ rowKeys fs := by
  intro hmem
  have := h (fs.length + 1) hmem
  omega

theorem addField_eq {fs : List (String × String)} (h : FieldInv fs) :
    addField fs = fs ++ [(fieldName (fs.length + 1), "")] :=
  setCell_of_notMem (fieldName_fresh h) ""

theorem fieldInv_add {fs : List (String × String)} (h : FieldInv fs) :
    FieldInv (addField fs) := by
  intro n hn
  rw [addField_eq h] at hn ⊢
  simp only [rowKeys, List.map_append, List.mem_append, List.map_cons,
    List.map_nil, List.mem_singleton] at hn
  rw [List.length_append]
  rcases hn with hn | hn
  · have := h n hn
    simp only [List.length_singleton]
    omega
  · have := fieldName_injective hn
    simp [this]

theorem reachable_fieldInv {fs : List (String × String)}
    (h : ReachableFields fs) : FieldInv fs := by
  induction h with
  | init => exact fieldInv_init
  | edit _ hk ih => exact fieldInv_setCell_of_mem ih hk
  | add _ ih => exact fieldInv_add ih
  | clear _ _ =>
      intro n hn
      simp [clearFields, rowKeys] at hn

/-! ### Table helper lemmas -/

theorem mem_addKeys (c : String) (r : Row) :
    ∀ acc : List String, c ∈ addKeys acc r ↔ c ∈ acc ∨ c ∈ rowKeys r := by
  induction r with
  | nil => intro acc; simp [addKeys, rowKeys]
  | cons p tl ih =>
    intro acc
    have hstep : addKeys acc (p :: tl)
        = addKeys (if p.1 ∈ acc then acc else acc ++ [p.1]) tl := rfl
    rw [hstep, ih]
    by_cases hp : p.1 ∈ acc
    · rw [if_pos hp]
      simp only [rowKeys, List.map_cons, List.mem_cons]
      constructor
      · rintro (h | h)
        · exact Or.inl h
        · exact Or.inr (Or.inr h)
      · rintro (h | h | h)
        · exact Or.inl h
        · exact Or.inl (h ▸ hp)
        · exact Or.inr h
    · rw [if_neg hp]
      simp only [rowKeys, List.map_cons, List.mem_cons, List.mem_append,
        List.mem_singleton]
      tauto

theorem mem_unionKeys (c : String) (items : List Row) :
    c ∈ unionKeys items ↔ ∃ r ∈ items, c ∈ rowKeys r := by
  have main : ∀ acc : List String,
      c ∈ items.foldl addKeys acc ↔ c ∈ acc ∨ ∃ r ∈ items, c ∈ rowKeys r := by
    induction items with
    | nil => intro acc; simp
    | cons r tl ih =>
      intro acc
      rw [List.foldl_cons, ih, mem_addKeys]
      constructor
      · rintro ((h | h) | ⟨x, hx, hp⟩)
        · exact Or.inl h
        · exact Or.inr ⟨r, List.mem_cons_self r tl, h⟩
        · exact Or.inr ⟨x, List.mem_cons_of_mem r hx, hp⟩
      · rintro (h | ⟨x, hx, hp⟩)
        · exact Or.inl (Or.inl h)
        · rcases List.mem_cons.1 hx with rfl | hx2
          · exact Or.inl (Or.inr hp)
          · exact Or.inr ⟨x, hx2, hp⟩
  simpa using main []

theorem ensureMatchedItem_rows_length (df : DataFrame) :
    (ensureMatchedItem df).rows.length = df.rows.length := by
  by_cases h : "Matched Item" ∈ df.columns
  · rw [ensureMatchedItem, if_pos h]
  · rw [ensureMatchedItem, if_neg h]
    simp

theorem ensure_rows_getD (df : DataFrame) (h : "Matched Item" ∉ df.columns)
    (i : Nat) (hi : i < df.rows.length) :
    (ensureMatchedItem df).rows.getD i []
      = setCell (df.rows.getD i []) "Matched Item" "" := by
  rw [ensureMatchedItem, if_neg h]
  simp only [List.getD_eq_getElem?_getD, List.getElem?_map]
  rw [List.getElem?_eq_getElem hi]
  simp

theorem matchLists_descList_getD (dict : List (String × List String))
    (df : DataFrame) (i : Nat) (hi : i < df.rows.length) :
    (matchLists dict (descList df)).getD i []
      = dictGet dict (cellStr (df.rows.getD i []) (descColumn df)) := by
  simp only [matchLists, descList, List.getD_eq_getElem?_getD, List.getElem?_map]
  rw [List.getElem?_eq_getElem hi]
  simp

theorem descList_getD (df : DataFrame) (i : Nat) (hi : i < df.rows.length) :
    (descList df).getD i "" = cellStr (df.rows.getD i []) (descColumn df) := by
  simp only [descList, List.getD_eq_getElem?_getD, List.getElem?_map]
  rw [List.getElem?_eq_getElem hi]
  simp

/-! ### Claims -/

/-- C3: for every session state, a failing Extract or Match action — a
transport error, a status in the raising 4xx/5xx range, or a malformed
JSON body, all of which make the fetch outcome `none` — leaves the
corresponding session slot (indeed the whole session state) exactly at
its prior value; the last three conjuncts record that each of the three
failure modes does produce outcome `none`. -/
theorem failed_actions_preserve_slots (s : SessionState)
    (re : FetchResult (List Row))
    (rm : FetchResult (List (String × List String)))
    (he : fetchOutcome re = none) (hm : fetchOutcome rm = none) :
    extractHandler s re = s ∧ matchHandler s rm = s
    ∧ (∀ msg : String,
        fetchOutcome (FetchResult.transportError msg : FetchResult (List Row))
          = none)
    ∧ (∀ (code : Nat) (b : Option (List Row)), 400 ≤ code → code < 600 →
        fetchOutcome (FetchResult.response code b) = none)
    ∧ (∀ code : Nat,
        fetchOutcome (FetchResult.response code (none : Option (List Row)))
          = none) := by
  refine ⟨?_, ?_, fun _ => rfl, ?_, ?_⟩
  · simp [extractHandler, he]
  · cases hdf : s.df <;> simp [matchHandler, hdf, hm]
  · intro code b h1 h2
    simp only [fetchOutcome]
    rw [if_pos ⟨h1, h2⟩]
  · intro code
    simp only [fetchOutcome]
    exact ite_self none

/-- Witness for C3: a concrete session, an HTTP 500 extraction response
and a transport error on matching. -/
theorem failed_actions_preserve_slots_witness :
    fetchOutcome (FetchResult.response 500 (none : Option (List Row))) = none
    ∧ fetchOutcome (FetchResult.transportError "connection refused"
        : FetchResult (List (String × List String))) = none
    ∧ extractHandler ⟨none, none, none, none, []⟩
        (FetchResult.response 500 none) = ⟨none, none, none, none, []⟩ :=
  ⟨by decide, rfl,
    (failed_actions_preserve_slots ⟨none, none, none, none, []⟩
      (FetchResult.response 500 none)
      (FetchResult.transportError "connection refused")
      (by decide) rfl).1⟩

/-- C4: after a successful Extract action the stored table is
`pd.DataFrame(items)`: one row per response object, rows kept verbatim
and in response order (so server field names are preserved), and a
column belongs to the table exactly when some response object carries
that key. -/
theorem extract_table_shape (s : SessionState) (resp : FetchResult (List Row))
    (items : List Row) (h : fetchOutcome resp = some items) :
    (extractHandler s resp).df = some (mkDataFrame items)
    ∧ (mkDataFrame items).rows.length = items.length
    ∧ (mkDataFrame items).rows = items
    ∧ ∀ c, c ∈ (mkDataFrame items).columns ↔ ∃ r ∈ items, c ∈ rowKeys r := by
  refine ⟨by simp [extractHandler, h], rfl, rfl, fun c => ?_⟩
  exact mem_unionKeys c items

/-- Witness for C4: a concrete 200 response with two objects over
overlapping key sets. -/
theorem extract_table_shape_witness :
    fetchOutcome (FetchResult.response 200
        (some [[("A", "1"), ("B", "2")], [("A", "3"), ("C", "4")]]))
      = some [[("A", "1"), ("B", "2")], [("A", "3"), ("C", "4")]]
    ∧ (extractHandler ⟨none, none, none, none, []⟩
        (FetchResult.response 200
          (some [[("A", "1"), ("B", "2")], [("A", "3"), ("C", "4")]]))).df
      = some (mkDataFrame [[("A", "1"), ("B", "2")], [("A", "3"), ("C", "4")]]) :=
  ⟨by decide,
    (extract_table_shape ⟨none, none, none, none, []⟩ _
      [[("A", "1"), ("B", "2")], [("A", "3"), ("C", "4")]] (by decide)).1⟩

/-- C1: after a successful Match action the stored candidate list has
one entry per table row, and entry `i` is the list the response mapping
assigns to the description string of row `i` (`dictGet` returns the
mapped list, and `[]` when the description is absent). -/
theorem match_alignment (s : SessionState) (df0 : DataFrame)
    (resp : FetchResult (List (String × List String)))
    (dict : List (String × List String))
    (hdf : s.df = some df0) (hr : fetchOutcome resp = some dict) :
    ∃ stored, (matchHandler s resp).matchCandidates = some stored
      ∧ stored.length = df0.rows.length
      ∧ ∀ i, i < df0.rows.length →
          stored.getD i []
            = dictGet dict
                (cellStr ((ensureMatchedItem df0).rows.getD i [])
                  (descColumn (ensureMatchedItem df0))) := by
  refine ⟨matchLists dict (descList (ensureMatchedItem df0)), ?_, ?_, ?_⟩
  · simp [matchHandler, hdf, hr]
  · simp [matchLists, descList, ensureMatchedItem_rows_length]
  · intro i hi
    have hi2 : i < (ensureMatchedItem df0).rows.length := by
      rw [ensureMatchedItem_rows_length]; exact hi
    exact matchLists_descList_getD dict (ensureMatchedItem df0) i hi2

/-- A two-row table whose descriptions are `x` and `z` (sample input for
witnesses). -/
def dfXZ : DataFrame :=
  ⟨["Request Item", "Matched Item"],
    [[("Request Item", "x"), ("Matched Item", "")],
     [("Request Item", "z"), ("Matched Item", "")]]⟩

/-- A session holding `dfXZ` (sample input for witnesses). -/
def sessXZ : SessionState := ⟨none, none, some dfXZ, none, []⟩

/-- A 200 matching response mapping only `x` (sample input). -/
def respX : FetchResult (List (String × List String)) :=
  FetchResult.response 200 (some [("x", ["m1", "m2"])])

/-- Witness for C1: a two-row table whose descriptions are `x` and `z`,
and a response mapping only `x`. -/
theorem match_alignment_witness :
    sessXZ.df = some dfXZ
    ∧ fetchOutcome respX = some [("x", ["m1", "m2"])]
    ∧ ∃ stored,
        (matchHandler sessXZ respX).matchCandidates = some stored
        ∧ stored.length = dfXZ.rows.length
        ∧ ∀ i, i < dfXZ.rows.length →
            stored.getD i []
              = dictGet [("x", ["m1", "m2"])]
                  (cellStr ((ensureMatchedItem dfXZ).rows.getD i [])
                    (descColumn (ensureMatchedItem dfXZ))) :=
  ⟨rfl, by decide,
    match_alignment sessXZ dfXZ respX [("x", ["m1", "m2"])] rfl (by decide)⟩

/-- C2: with the candidate lists stored by a successful Match action,
two distinct rows whose description strings are equal receive identical
candidate lists, because the response is keyed by description value. -/
theorem match_duplicate_descriptions (s : SessionState) (df0 : DataFrame)
    (resp : FetchResult (List (String × List String)))
    (dict : List (String × List String)) (stored : List (List String))
    (i j : Nat) (hdf : s.df = some df0) (hr : fetchOutcome resp = some dict)
    (hst : (matchHandler s resp).matchCandidates = some stored)
    (_hij : i ≠ j) (hi : i < df0.rows.length) (hj : j < df0.rows.length)
    (hdesc :
      cellStr ((ensureMatchedItem df0).rows.getD i [])
          (descColumn (ensureMatchedItem df0))
        = cellStr ((ensureMatchedItem df0).rows.getD j [])
            (descColumn (ensureMatchedItem df0))) :
    stored.getD i [] = stored.getD j [] := by
  have hst2 : stored = matchLists dict (descList (ensureMatchedItem df0)) := by
    simp [matchHandler, hdf, hr] at hst
    exact hst.symm
  have hi2 : i < (ensureMatchedItem df0).rows.length := by
    rw [ensureMatchedItem_rows_length]; exact hi
  have hj2 : j < (ensureMatchedItem df0).rows.length := by
    rw [ensureMatchedItem_rows_length]; exact hj
  rw [hst2, matchLists_descList_getD dict _ i hi2,
    matchLists_descList_getD dict _ j hj2, hdesc]

/-- A two-row table carrying the duplicate description `x` in both rows
(sample input for witnesses). -/
def dfXX : DataFrame :=
  ⟨["Request Item"], [[("Request Item", "x")], [("Request Item", "x")]]⟩

/-- A session holding `dfXX` (sample input for witnesses). -/
def sessXX : SessionState := ⟨none, none, some dfXX, none, []⟩

/-- A 200 matching response mapping `x` to one candidate (sample input). -/
def respX1 : FetchResult (List (String × List String)) :=
  FetchResult.response 200 (some [("x", ["m1"])])

/-- Witness for C2: rows 0 and 1 both carry description `x`. -/
theorem match_duplicate_descriptions_witness :
    (matchHandler sessXX respX1).matchCandidates = some [["m1"], ["m1"]]
    ∧ [["m1"], ["m1"]].getD 0 [] = [["m1"], ["m1"]].getD 1 [] :=
  ⟨by decide,
    match_duplicate_descriptions sessXX dfXX respX1 [("x", ["m1"])]
      [["m1"], ["m1"]] 0 1 rfl (by decide) (by decide)
      (by decide) (by decide) (by decide) (by decide)⟩

/-- C6: writing a selected candidate `v` for row `i` stores exactly `v`
in row `i`'s `"Matched Item"` cell and leaves every other row and the
column list unchanged; the selector shows a single blank option for a
row without candidates and defaults to the first candidate otherwise. -/
theorem select_writes_single_row (df : DataFrame) (i : Nat) (v : String)
    (hi : i < df.rows.length) :
    rowGet ((writeMatchedItem df i v).rows.getD i []) "Matched Item" = some v
    ∧ (∀ j, j ≠ i → (writeMatchedItem df i v).rows.getD j [] = df.rows.getD j [])
    ∧ (writeMatchedItem df i v).columns = df.columns
    ∧ selectOptions [] = [""]
    ∧ ∀ opts : List String, opts ≠ [] → selectDefault opts = opts.headD "" := by
  refine ⟨?_, ?_, rfl, rfl, ?_⟩
  · simp only [writeMatchedItem, List.getD_eq_getElem?_getD]
    rw [List.getElem?_set_self (by simpa using hi)]
    simp only [Option.getD_some]
    rw [rowGet_setCell, if_pos rfl]
  · intro j hj
    simp only [writeMatchedItem, List.getD_eq_getElem?_getD]
    rw [List.getElem?_set_ne (fun e => hj e.symm)]
  · intro opts hopts
    rw [selectDefault, selectOptions, if_neg]
    simp [hopts]

/-- Witness for C6: write `m2` into row 0 of the two-row sample table. -/
theorem select_writes_single_row_witness :
    rowGet ((writeMatchedItem dfXZ 0 "m2").rows.getD 0 []) "Matched Item"
      = some "m2"
    ∧ (∀ j, j ≠ 0 →
        (writeMatchedItem dfXZ 0 "m2").rows.getD j [] = dfXZ.rows.getD j [])
    ∧ (writeMatchedItem dfXZ 0 "m2").columns = dfXZ.columns
    ∧ selectOptions [] = [""]
    ∧ ∀ opts : List String, opts ≠ [] → selectDefault opts = opts.headD "" :=
  select_writes_single_row dfXZ 0 "m2" (by decide)

/-- C7: on every reachable field set, `add_field` appends exactly one
entry, named `"Field (size+1)"`, a name fresh in the set (so the size
grows by one and earlier fields keep their order and position), and
`clear_fields` empties the set. -/
theorem po_fields_add_clear (fs : List (String × String))
    (h : ReachableFields fs) :
    fieldName (fs.length + 1) ∉ rowKeys fs
    ∧ addField fs = fs ++ [(fieldName (fs.length + 1), "")]
    ∧ (addField fs).length = fs.length + 1
    ∧ rowKeys (addField fs) = rowKeys fs ++ [fieldName (fs.length + 1)]
    ∧ clearFields fs = [] := by
  have hinv := reachable_fieldInv h
  have hfresh := fieldName_fresh hinv
  have heq := addField_eq hinv
  refine ⟨hfresh, heq, ?_, ?_, rfl⟩
  · rw [heq]
    simp
  · rw [heq]
    simp [rowKeys]

/-- Witness for C7 at the initial four-field state. -/
theorem po_fields_add_clear_witness :
    fieldName (initPoFields.length + 1) ∉ rowKeys initPoFields
    ∧ addField initPoFields
      = initPoFields ++ [(fieldName (initPoFields.length + 1), "")]
    ∧ (addField initPoFields).length = initPoFields.length + 1
    ∧ rowKeys (addField initPoFields)
      = rowKeys initPoFields ++ [fieldName (initPoFields.length + 1)]
    ∧ clearFields initPoFields = [] :=
  po_fields_add_clear initPoFields ReachableFields.init

/-- C9: merely rendering the Match tab (no button pressed, no candidates
stored) writes back a copy of the stored table with a `"Matched Item"`
column ensured: the column is present afterwards, the row count and all
cells of other columns are unchanged, the table is untouched when the
column was already present, and otherwise the column is appended at the
end with the empty string in every row. -/
theorem render_match_ensures_column (s : SessionState) (df0 : DataFrame)
    (sel : Nat → String) (hdf : s.df = some df0)
    (hmc : s.matchCandidates = none) :
    (renderMatchTab s sel).df = some (ensureMatchedItem df0)
    ∧ "Matched Item" ∈ (ensureMatchedItem df0).columns
    ∧ (ensureMatchedItem df0).rows.length = df0.rows.length
    ∧ (∀ i, i < df0.rows.length → ∀ c, c ≠ "Matched Item" →
        rowGet ((ensureMatchedItem df0).rows.getD i []) c
          = rowGet (df0.rows.getD i []) c)
    ∧ ("Matched Item" ∈ df0.columns → ensureMatchedItem df0 = df0)
    ∧ ("Matched Item" ∉ df0.columns →
        (ensureMatchedItem df0).columns = df0.columns ++ ["Matched Item"]
        ∧ ∀ i, i < df0.rows.length →
            rowGet ((ensureMatchedItem df0).rows.getD i []) "Matched Item"
              = some "") := by
  refine ⟨?_, ?_, ensureMatchedItem_rows_length df0, ?_, ?_, ?_⟩
  · simp [renderMatchTab, hdf, hmc]
  · by_cases h : "Matched Item" ∈ df0.columns
    · rw [ensureMatchedItem, if_pos h]
      exact h
    · rw [ensureMatchedItem, if_neg h]
      simp
  · intro i hi c hc
    by_cases h : "Matched Item" ∈ df0.columns
    · rw [ensureMatchedItem, if_pos h]
    · rw [ensure_rows_getD df0 h i hi, rowGet_setCell, if_neg hc]
  · intro h
    rw [ensureMatchedItem, if_pos h]
  · intro h
    refine ⟨by rw [ensureMatchedItem, if_neg h], fun i hi => ?_⟩
    rw [ensure_rows_getD df0 h i hi, rowGet_setCell, if_pos rfl]

/-- Witness for C9: a session holding a table without the
`"Matched Item"` column and no stored candidates. -/
theorem render_match_ensures_column_witness :
    sessXX.df = some dfXX
    ∧ sessXX.matchCandidates = none
    ∧ (renderMatchTab sessXX (fun _ => "")).df = some (ensureMatchedItem dfXX)
    ∧ "Matched Item" ∈ (ensureMatchedItem dfXX).columns :=
  ⟨rfl, rfl,
    (render_match_ensures_column sessXX dfXX (fun _ => "") rfl rfl).1,
    (render_match_ensures_column sessXX dfXX (fun _ => "") rfl rfl).2.1⟩

theorem requestItem_mem_ensure (df : DataFrame) :
    ("Request Item" ∈ (ensureMatchedItem df).columns)
      ↔ "Request Item" ∈ df.columns := by
  by_cases h : "Matched Item" ∈ df.columns
  · rw [ensureMatchedItem, if_pos h]
  · rw [ensureMatchedItem, if_neg h]
    simp only [List.mem_append, List.mem_singleton]
    constructor
    · rintro (h2 | h2)
      · exact h2
      · exact absurd h2 (by decide)
    · exact Or.inl

theorem headD_ensure (df : DataFrame) (h : df.columns ≠ []) :
    (ensureMatchedItem df).columns.headD "" = df.columns.headD "" := by
  by_cases hm : "Matched Item" ∈ df.columns
  · rw [ensureMatchedItem, if_pos hm]
  · rw [ensureMatchedItem, if_neg hm]
    cases hc : df.columns with
    | nil => exact absurd hc h
    | cons a l => rfl

/-- C8: the batched matching request built from the Match tab's working
table carries the fixed limit 5 and one query per table row; the
description column is `"Request Item"` when the stored table has such a
column and the stored table's first column otherwise, and query `i` is
row `i`'s (stringified) cell in that column. -/
theorem match_request_shape (df0 : DataFrame) (h : df0.columns ≠ []) :
    (buildMatchRequest (ensureMatchedItem df0)).limit = 5
    ∧ (buildMatchRequest (ensureMatchedItem df0)).queries.length
      = df0.rows.length
    ∧ ("Request Item" ∈ df0.columns →
        descColumn (ensureMatchedItem df0) = "Request Item")
    ∧ ("Request Item" ∉ df0.columns →
        descColumn (ensureMatchedItem df0) = df0.columns.headD "")
    ∧ ∀ i, i < df0.rows.length →
        (buildMatchRequest (ensureMatchedItem df0)).queries.getD i ""
          = cellStr ((ensureMatchedItem df0).rows.getD i [])
              (descColumn (ensureMatchedItem df0)) := by
  refine ⟨rfl, ?_, ?_, ?_, ?_⟩
  · simp [buildMatchRequest, descList, ensureMatchedItem_rows_length]
  · intro hri
    rw [descColumn, if_pos ((requestItem_mem_ensure df0).2 hri)]
  · intro hri
    rw [descColumn, if_neg (fun m => hri ((requestItem_mem_ensure df0).1 m)),
      headD_ensure df0 h]
  · intro i hi
    have hi2 : i < (ensureMatchedItem df0).rows.length := by
      rw [ensureMatchedItem_rows_length]; exact hi
    exact descList_getD (ensureMatchedItem df0) i hi2

/-- Witness for C8 on the sample table with a `"Request Item"` column. -/
theorem match_request_shape_witness :
    (buildMatchRequest (ensureMatchedItem dfXX)).limit = 5
    ∧ (buildMatchRequest (ensureMatchedItem dfXX)).queries.length
      = dfXX.rows.length
    ∧ descColumn (ensureMatchedItem dfXX) = "Request Item" :=
  ⟨(match_request_shape dfXX (by decide)).1,
    (match_request_shape dfXX (by decide)).2.1,
    (match_request_shape dfXX (by decide)).2.2.1 (by decide)⟩

/-- C5: a successful save appends the table's rows to the store and the
immediate read-back returns at most 5 rows, ordered by reverse physical
insertion order (entry `k` is the store's (length−1−k)-th row), with the
first returned row equal to the value tuple of the table's last row. -/
theorem save_readback_recent (df : DataFrame) (db : List DbRow)
    (lastRow : Row) (hlast : df.rows.getLast? = some lastRow) :
    (saveHandler df db false).1 = db ++ toSqlRows df
    ∧ ∃ preview, (saveHandler df db false).2 = some preview
      ∧ preview.length ≤ 5
      ∧ (∀ k, k < preview.length →
          preview.getD k []
            = (db ++ toSqlRows df).getD ((db ++ toSqlRows df).length - 1 - k) [])
      ∧ preview.head? = some (df.columns.map (fun c => rowGet lastRow c)) := by
  refine ⟨rfl, readRecent 5 (db ++ toSqlRows df), rfl, ?_, ?_, ?_⟩
  · rw [readRecent]
    have := List.length_take 5 (db ++ toSqlRows df).reverse
    omega
  · intro k hk
    rw [readRecent] at hk ⊢
    rw [List.length_take] at hk
    have hk5 : k < 5 := by omega
    have hklen : k < (db ++ toSqlRows df).length := by
      rw [List.length_reverse] at hk
      omega
    rw [List.getD_eq_getElem?_getD, List.getElem?_take_of_lt hk5,
      List.getElem?_reverse hklen, List.getD_eq_getElem?_getD]
  · rw [readRecent]
    have hne : toSqlRows df ≠ [] := by
      intro hnil
      rw [toSqlRows, List.map_eq_nil_iff] at hnil
      rw [hnil] at hlast
      simp at hlast
    have hhead : (db ++ toSqlRows df).reverse.head?
        = some (df.columns.map (fun c => rowGet lastRow c)) := by
      rw [List.head?_reverse, List.getLast?_append, toSqlRows,
        List.getLast?_map, hlast]
      rfl
    cases hrev : (db ++ toSqlRows df).reverse with
    | nil =>
        rw [hrev] at hhead
        simp at hhead
    | cons a t =>
        rw [hrev] at hhead
        simpa using hhead

/-- Witness for C5: save a one-row table onto a one-row store. -/
theorem save_readback_recent_witness :
    dfXX.rows.getLast? = some [("Request Item", "x")]
    ∧ (saveHandler dfXX [[some "old"]] false).1
      = [[some "old"]] ++ toSqlRows dfXX
    ∧ ∃ preview, (saveHandler dfXX [[some "old"]] false).2 = some preview
      ∧ preview.length ≤ 5
      ∧ (∀ k, k < preview.length →
          preview.getD k []
            = ([[some "old"]] ++ toSqlRows dfXX).getD
                (([[some "old"]] ++ toSqlRows dfXX).length - 1 - k) [])
      ∧ preview.head?
        = some (dfXX.columns.map (fun c => rowGet [("Request Item", "x")] c)) :=
  ⟨by decide,
    (save_readback_recent dfXX [[some "old"]] [("Request Item", "x")]
      (by decide)).1,
    (save_readback_recent dfXX [[some "old"]] [("Request Item", "x")]
      (by decide)).2⟩

/-- The characters that force `to_csv` to quote a field. -/
def needsQuote (s : String) : Bool :=
  s.data.any (fun c => c == ',' || c == '"' || c == '\n' || c == '\r')

theorem csvQuote_plain {s : String} (h : needsQuote s = false) :
    csvQuote s = s := by
  rw [csvQuote, if_neg]
  rw [needsQuote] at h
  simp [h]

/-- C10: the CSV export depends only on the in-memory table and is
offered with the same content whether the save succeeded or failed; on a
table free of delimiter/quote/newline characters it is exactly the
comma-joined header line followed by one comma-joined line per row; and
on the single-row table `A = x, Matched Item = m1` it is the literal
text `A,Matched Item\nx,m1\n`. -/
theorem csv_export_shape (df : DataFrame) (db : List DbRow)
    (hcols : ∀ c ∈ df.columns, needsQuote c = false)
    (hcells : ∀ r ∈ df.rows, ∀ c ∈ df.columns,
      needsQuote ((rowGet r c).getD "") = false) :
    (saveAndExport df db true).2 = toCsv df
    ∧ (saveAndExport df db false).2 = toCsv df
    ∧ toCsv df
      = String.intercalate "," df.columns ++ "\n"
        ++ String.join (df.rows.map (fun r =>
            String.intercalate ","
              (df.columns.map (fun c => (rowGet r c).getD "")) ++ "\n"))
    ∧ toCsv ⟨["A", "Matched Item"], [[("A", "x"), ("Matched Item", "m1")]]⟩
      = "A,Matched Item\nx,m1\n" := by
  have hquote : df.columns.map csvQuote = df.columns := by
    have := List.map_congr_left (l := df.columns) (f := csvQuote)
      (g := fun c => c) (fun c hc => csvQuote_plain (hcols c hc))
    simpa using this
  refine ⟨rfl, rfl, ?_, by decide⟩
  rw [toCsv, csvLine, hquote]
  congr 2
  apply List.map_congr_left
  intro r hr
  rw [csvLine, List.map_map]
  congr 2
  have := List.map_congr_left (l := df.columns)
    (f := csvQuote ∘ fun c => (rowGet r c).getD "")
    (g := fun c => (rowGet r c).getD "")
    (fun c hc => csvQuote_plain (hcells r hr c hc))
  simpa using this

/-- Witness for C10 on the one-row example table. -/
theorem csv_export_shape_witness :
    toCsv ⟨["A", "Matched Item"], [[("A", "x"), ("Matched Item", "m1")]]⟩
      = "A,Matched Item\nx,m1\n"
    ∧ (saveAndExport ⟨["A", "Matched Item"],
        [[("A", "x"), ("Matched Item", "m1")]]⟩ [] true).2
      = toCsv ⟨["A", "Matched Item"], [[("A", "x"), ("Matched Item", "m1")]]⟩ :=
  ⟨(csv_export_shape ⟨["A", "Matched Item"],
      [[("A", "x"), ("Matched Item", "m1")]]⟩ [] (by decide) (by decide)).2.2.2,
    (csv_export_shape ⟨["A", "Matched Item"],
      [[("A", "x"), ("Matched Item", "m1")]]⟩ [] (by decide) (by decide)).1⟩

end App
